import Mathlib

/-!
Shallow embedding of the call-outcome classification core of
`src/server.js` (the Retell → Zendesk backend), together with proofs of
the testable properties stated in the specification.

Modelling conventions:
* JavaScript optional fields are `Option`; "absent or not an array"
  collections are `none`; `x || d` on strings is `jsStrOr` (the empty
  string is falsy in JS).
* `call_analysis` can be absent/null/falsy (`CAVal.null`), an object
  (`CAVal.obj`), a stringified JSON payload (`CAVal.str`), or any other
  shape (`CAVal.other`).  For the string case the model carries the parse
  outcome (`Option CallAnalysis`) as part of the input, standing for the
  environment's `JSON.parse` result; `none` means the parse throws, which
  the source catches (server.js lines 145-151).
* JS strings are modelled as Lean `String` (one `Char` per code unit);
  `toLowerCase` on the ASCII range is `String.toLower`.
* `duration_ms` is a non-negative number (per the data model), modelled
  as `Nat`; `duration_ms / 1000` is exact rational division as in JS.
-/

/-- JS `Set` insertion (`tags.add`): insertion order kept, no duplicates. -/
def setAdd (l : List String) (x : String) : List String :=
  if x ∈ l then l else l ++ [x]

/-- JS `Set` removal (`tags.delete`). -/
def setDelete (l : List String) (x : String) : List String :=
  l.filter (fun y => y ≠ x)

/-- Entry of `transcript_with_tool_calls` / `tool_calls`: only `role` and
`name` are inspected by the source. -/
structure ToolEvent where
  role : Option String
  name : Option String
deriving DecidableEq, Repr

/-- The fields of the `call_analysis` object read by the source.
`parse_error` / `raw` model the `\x7b __parse_error: true, raw: ca \x7d`
object built in `getCallAnalysisObject` when `JSON.parse` throws. -/
structure CallAnalysis where
  in_voicemail : Option Bool
  user_sentiment : Option String
  call_successful : Option Bool
  call_summary : Option String
  call_summary_text : Option String
  parse_error : Bool
  raw : Option String
deriving DecidableEq, Repr

/-- The possible shapes of `call.call_analysis`. `null` covers
null/undefined and other falsy non-string values; `str` is a stringified
payload carrying its `JSON.parse` outcome; `other` is any remaining
non-object, non-string shape (number, boolean, ...). -/
inductive CAVal where
  | null : CAVal
  | obj (o : CallAnalysis) : CAVal
  | str (s : String) (parsed : Option CallAnalysis) : CAVal
  | other : CAVal
deriving DecidableEq, Repr

/-- The fields of the webhook `call` object read by the classification
core and the QA formatter (server.js lines 156-266). -/
structure Call where
  call_id : Option String
  agent_name : Option String
  call_type : Option String
  duration_ms : Option Nat
  start_timestamp : Option Nat
  end_timestamp : Option Nat
  disconnection_reason : Option String
  transcript : Option String
  collected_dynamic_variables : Option (List (String × String))
  call_analysis : CAVal
  transcript_with_tool_calls : Option (List ToolEvent)
  tool_calls : Option (List ToolEvent)
deriving DecidableEq, Repr

/-- A call with every field absent (the fully-degenerate webhook input). -/
def emptyCall : Call :=
  ⟨none, none, none, none, none, none, none, none, none, CAVal.null, none, none⟩

-- ------------------------------------------------------------------
-- Helpers (server.js lines 40-68)
-- ------------------------------------------------------------------

/-- `toLowerCase` on the ASCII range, written over the character list so
that it evaluates by kernel reduction (extensionally `String.toLower`). -/
def jsToLower (s : String) : String :=
  String.mk (s.data.map Char.toLower)

/-- `String.prototype.trim`, written over the character list. -/
def jsTrim (s : String) : String :=
  String.mk (((s.data.dropWhile Char.isWhitespace).reverse.dropWhile Char.isWhitespace).reverse)

/-- `safeLower` (line 40): `(x || "").toString().toLowerCase()` on an
optional string. -/
def safeLower (x : Option String) : String :=
  jsToLower (x.getD "")

/-- JS `x || d` for string-valued `x` (the empty string is falsy). -/
def jsStrOr (x : Option String) (d : String) : String :=
  match x with
  | none => d
  | some s => if s = "" then d else s

/-- `startsWithChars needle hay`: `needle` is an initial segment of `hay`. -/
def startsWithChars : List Char → List Char → Bool
  | [], _ => true
  | _ :: _, [] => false
  | c :: cs, d :: ds => c == d && startsWithChars cs ds

/-- `hasSubstrChars needle hay`: `needle` occurs contiguously in `hay`
(JS `String.prototype.includes`). -/
def hasSubstrChars (needle : List Char) : List Char → Bool
  | [] => startsWithChars needle []
  | c :: rest => startsWithChars needle (c :: rest) || hasSubstrChars needle rest

/-- JS `s.includes(sub)`. -/
def jsIncludes (s sub : String) : Bool :=
  hasSubstrChars sub.data s.data

-- ------------------------------------------------------------------
-- didTransfer (server.js lines 70-86)
-- ------------------------------------------------------------------

/-- `didTransfer` (lines 70-86): a hit in `transcript_with_tool_calls`
(role `tool_call_invocation`, name containing "transfer"
case-insensitively) or in `tool_calls` (name containing "transfer").
A missing or non-array collection contributes nothing. -/
def didTransfer (call : Call) : Bool :=
  let twtcHit :=
    match call.transcript_with_tool_calls with
    | some l =>
        l.any (fun e =>
          e.role == some "tool_call_invocation" &&
            jsIncludes (safeLower e.name) "transfer")
    | none => false
  if twtcHit then true
  else
    match call.tool_calls with
    | some l => l.any (fun t => jsIncludes (safeLower t.name) "transfer")
    | none => false

-- ------------------------------------------------------------------
-- detectRequestedHuman (server.js lines 88-100)
-- ------------------------------------------------------------------

/-- JS `\w` character class (ASCII letters, digits, underscore). -/
def wordChar (c : Char) : Bool :=
  c.isAlphanum || c == '_'

/-- Whether a `\b` word boundary is satisfied before a match, given the
previous character (`none` at the start of the text). -/
def prevOk (prev : Option Char) : Bool :=
  match prev with
  | none => true
  | some c => !wordChar c

/-- Scan for `\b<phrase>\b` in a character list, tracking the previous
character for the left boundary. -/
def scanWord (phrase : List Char) : Option Char → List Char → Bool
  | _, [] => false
  | prev, c :: rest =>
    (prevOk prev && startsWithChars phrase (c :: rest) &&
      (match (c :: rest).drop phrase.length with
       | [] => true
       | d :: _ => !wordChar d)) || scanWord phrase (some c) rest

/-- The English alternatives of the escalation regex (line 92). -/
def enPhrases : List String :=
  ["human", "real person", "live agent", "representative",
   "talk to someone", "speak to someone", "agent"]

/-- Case folding for the `/i` flag over the Cyrillic and ASCII ranges
used by the Ukrainian escalation patterns. -/
def cyrFold (c : Char) : Char :=
  if 0x410 ≤ c.toNat && c.toNat ≤ 0x42F then Char.ofNat (c.toNat + 0x20)
  else if 0x400 ≤ c.toNat && c.toNat ≤ 0x40F then Char.ofNat (c.toNat + 0x50)
  else if c.toNat == 0x490 then Char.ofNat 0x491
  else c.toLower

/-- JS `\s` on the ASCII range. -/
def isSpaceChar (c : Char) : Bool :=
  c == ' ' || c == '\t' || c == '\n' || c == '\r' || c == '\x0b' || c == '\x0c'

/-- The literal Ukrainian alternatives of the escalation regex (line 95):
`оператор`, `людин(а|у)`, `менеджер`, the two apostrophe variants of
`з'єднай`, and `переведи`. -/
def uaSimple : List String :=
  ["оператор", "людина", "людину", "менеджер",
   "з’єднай", "з\x27єднай", "переведи"]

/-- Match the alternative `жив(ий|ого)\s+агент` at the head of the text. -/
def matchZhivAt (t : List Char) : Bool :=
  let afterStem :=
    if startsWithChars ("живий".data) t then some (t.drop 5)
    else if startsWithChars ("живого".data) t then some (t.drop 6)
    else none
  match afterStem with
  | none => false
  | some r =>
    match r with
    | [] => false
    | c :: rest => isSpaceChar c && startsWithChars ("агент".data) (rest.dropWhile isSpaceChar)

/-- Match `жив(ий|ого)\s+агент` anywhere in the text. -/
def matchZhiv : List Char → Bool
  | [] => false
  | c :: rest => matchZhivAt (c :: rest) || matchZhiv rest

/-- `detectRequestedHuman` (lines 88-100): English whole-word phrases on
the lower-cased transcript, or Ukrainian patterns case-insensitively on
the raw transcript. -/
def detectRequestedHuman (transcript : String) : Bool :=
  let t := jsToLower transcript
  let en := enPhrases.any (fun p => scanWord p.data none t.data)
  let folded := transcript.data.map cyrFold
  let ua := matchZhiv folded || uaSimple.any (fun p => hasSubstrChars p.data folded)
  en || ua

-- ------------------------------------------------------------------
-- getCallAnalysisObject (server.js lines 138-154)
-- ------------------------------------------------------------------

/-- The `\x7b __parse_error: true, raw: ca \x7d` object returned when
`JSON.parse` of a stringified `call_analysis` throws (line 149). -/
def parseErrorObj (s : String) : CallAnalysis :=
  ⟨none, none, none, none, none, true, some s⟩

/-- `getCallAnalysisObject` (lines 138-154): object passed through,
string parsed (falling back to the parse-error object), every other
shape — including the falsy empty string — gives `null`. -/
def getCallAnalysisObject (call : Call) : Option CallAnalysis :=
  match call.call_analysis with
  | CAVal.null => none
  | CAVal.obj o => some o
  | CAVal.str s parsed =>
      if s = "" then none else some (parsed.getD (parseErrorObj s))
  | CAVal.other => none

/-- `getCallAnalysisObject` with the fallibility of `JSON.parse` made
explicit: the parse is an `Except` step and the source's `try/catch`
(lines 146-150) converts the error into the parse-error object. -/
def getCallAnalysisObjectE (call : Call) : Except String (Option CallAnalysis) :=
  match call.call_analysis with
  | CAVal.null => Except.ok none
  | CAVal.obj o => Except.ok (some o)
  | CAVal.str s parsed =>
      if s = "" then Except.ok none
      else
        match (match parsed with
               | some o => Except.ok o
               | none => Except.error "SyntaxError") with
        | Except.ok o => Except.ok (some o)
        | Except.error _ => Except.ok (some (parseErrorObj s))
  | CAVal.other => Except.ok none

-- ------------------------------------------------------------------
-- computeTags (server.js lines 202-266), staged as in the source
-- ------------------------------------------------------------------

/-- `EARLY_HANGUP_THRESHOLD_SEC` (line 15). -/
def EARLY_HANGUP_THRESHOLD_SEC : ℚ := 20

/-- The three base tags (lines 205-207), accumulated with `Set.add`. -/
def tagsBase : List String :=
  setAdd (setAdd (setAdd [] "retell_ai") "voice_bot") "ai_call_review"

/-- Lines 209: `if (call?.call_type) tags.add(...)` — the tag is added
only for a present, non-empty (truthy) `call_type`. -/
def tagsAfterCallType (call : Call) : List String :=
  match call.call_type with
  | none => tagsBase
  | some ct => if ct = "" then tagsBase else setAdd tagsBase ("calltype_" ++ jsToLower ct)

/-- Line 212: `!!ca?.in_voicemail`. -/
def inVoicemailOf (call : Call) : Bool :=
  match getCallAnalysisObject call with
  | some o => o.in_voicemail.getD false
  | none => false

/-- Line 213. -/
def tagsAfterVoicemail (call : Call) : List String :=
  setAdd (tagsAfterCallType call) (if inVoicemailOf call then "voicemail_yes" else "voicemail_no")

/-- Line 216. -/
def tagsAfterTransfer (call : Call) : List String :=
  setAdd (tagsAfterVoicemail call) (if didTransfer call then "ai_transferred" else "ai_not_transferred")

/-- Lines 218-219: `detectRequestedHuman(call?.transcript || "")`. -/
def requestedHumanOf (call : Call) : Bool :=
  detectRequestedHuman (jsStrOr call.transcript "")

/-- Line 221: `safeLower(ca?.user_sentiment)`. -/
def userSentimentOf (call : Call) : String :=
  safeLower ((getCallAnalysisObject call).bind CallAnalysis.user_sentiment)

/-- Lines 222-223. -/
def tagsAfterSentiment (call : Call) : List String :=
  if userSentimentOf call = "" then setAdd (tagsAfterTransfer call) "sentiment_unknown"
  else setAdd (tagsAfterTransfer call) ("sentiment_" ++ userSentimentOf call)

/-- Line 225: `(call?.duration_ms || 0) / 1000` (exact JS division). -/
def durationSecOf (call : Call) : ℚ :=
  mkRat (call.duration_ms.getD 0) 1000

/-- Line 226. -/
def disconnectionReasonOf (call : Call) : String :=
  safeLower call.disconnection_reason

/-- Lines 228-229. -/
def userHungUpOf (call : Call) : Bool :=
  jsIncludes (disconnectionReasonOf call) "user" || jsIncludes (disconnectionReasonOf call) "client"

/-- Line 232: `durationSec > 0 && durationSec < EARLY_HANGUP_THRESHOLD_SEC`. -/
def isEarlyHangupDuration (call : Call) : Bool :=
  decide (0 < durationSecOf call) && decide (durationSecOf call < EARLY_HANGUP_THRESHOLD_SEC)

/-- Lines 231-237: the hangup classification. -/
def tagsAfterHangup (call : Call) : List String :=
  if userHungUpOf call then
    if isEarlyHangupDuration call then setAdd (tagsAfterSentiment call) "ai_early_hangup"
    else setAdd (tagsAfterSentiment call) "ai_hangup"
  else tagsAfterSentiment call

/-- Lines 239-240: the tri-state success flag (`none` when absent or not
a boolean). -/
def callSuccessfulOf (call : Call) : Option Bool :=
  (getCallAnalysisObject call).bind CallAnalysis.call_successful

/-- The failure condition of lines 244-250. -/
def failCond (call : Call) : Bool :=
  didTransfer call || requestedHumanOf call ||
    decide (userSentimentOf call = "negative") ||
    callSuccessfulOf call == some false ||
    (tagsAfterHangup call).contains "ai_hangup"

/-- The guard of the early-hangup override (line 254). -/
def earlyOverride (call : Call) : Bool :=
  (tagsAfterHangup call).contains "ai_early_hangup" &&
    !requestedHumanOf call && !decide (userSentimentOf call = "negative")

/-- The final value of the `outcome` variable (lines 242-257). -/
def outcomeOf (call : Call) : String :=
  if earlyOverride call then "ai_resolved"
  else if failCond call then "ai_failed"
  else "ai_resolved"

/-- Line 256: the override also adds `ai_no_chance`. -/
def tagsAfterNoChance (call : Call) : List String :=
  if earlyOverride call then setAdd (tagsAfterHangup call) "ai_no_chance"
  else tagsAfterHangup call

/-- `computeTags` (lines 202-266): the staged accumulation above,
followed by the exclusivity enforcement (lines 259-261) and the
`requested_human` marker (line 263). -/
def computeTags (call : Call) : List String :=
  let t := setAdd (setDelete (setDelete (tagsAfterNoChance call) "ai_resolved") "ai_failed")
    (outcomeOf call)
  if requestedHumanOf call then setAdd t "requested_human" else t

-- ------------------------------------------------------------------
-- truncate / safeJson / buildQaPayload (server.js lines 44-58, 156-200)
-- ------------------------------------------------------------------

/-- Safety limits for the Zendesk comment body (lines 25-28). -/
def MAX_TRANSCRIPT_CHARS : Nat := 30000

def MAX_VARS_JSON_CHARS : Nat := 6000

def MAX_CALL_SUMMARY_CHARS : Nat := 6000

def MAX_QA_BODY_CHARS : Nat := 60000

/-- The default truncation suffix of `truncate` (line 44). -/
def truncSuffix : String := "\n...[truncated]"

/-- `truncate` (lines 44-49): identity under the cap, otherwise a slice
of `maxChars - suffix.length` characters (clamped at 0, as
`Math.max(0, cut)`) with the suffix appended. -/
def truncate (s : String) (maxChars : Nat) : String :=
  if s.length ≤ maxChars then s
  else String.mk (s.data.take (maxChars - truncSuffix.length)) ++ truncSuffix

/-- One character of `JSON.stringify`'s string escaping. -/
def escapeJsonChar (c : Char) : String :=
  if c = '"' then "\\\""
  else if c = '\\' then "\\\\"
  else if c = '\n' then "\\n"
  else if c = '\t' then "\\t"
  else if c = '\r' then "\\r"
  else String.singleton c

/-- A JSON string literal. -/
def jsonQuote (s : String) : String :=
  "\"" ++ String.join (s.data.map escapeJsonChar) ++ "\""

/-- `JSON.stringify(obj, null, 2)` restricted to the flat string-valued
maps that model `collected_dynamic_variables`. -/
def jsonStringifyVars (vars : List (String × String)) : String :=
  match vars with
  | [] => "\x7b\x7d"
  | _ =>
    "\x7b\n" ++
      String.intercalate ",\n"
        (vars.map (fun kv => "  " ++ jsonQuote kv.1 ++ ": " ++ jsonQuote kv.2)) ++
      "\n\x7d"

/-- `safeJson` (lines 51-58).  For the flat string maps of the model the
serialization is total, so the `catch` branch is unreachable. -/
def safeJson (vars : List (String × String)) (maxChars : Nat) : String :=
  truncate (jsonStringifyVars vars) maxChars

/-- `Math.round` on an exact rational (halves round up). -/
def jsRound (q : ℚ) : ℤ :=
  Int.floor (q + 1 / 2)

/-- Rendering of `x || "N/A"` for a numeric timestamp (0 is falsy). -/
def tsDisplay (x : Option Nat) : String :=
  match x with
  | none => "N/A"
  | some 0 => "N/A"
  | some n => toString n

/-- Line 165-166: the raw then truncated transcript section. -/
def qaTranscriptRaw (call : Call) : String :=
  jsStrOr call.transcript ""

def qaTranscript (call : Call) : String :=
  truncate (qaTranscriptRaw call) MAX_TRANSCRIPT_CHARS

/-- Lines 170-175: the raw call-summary section, with the parse-error
placeholder. -/
def qaCallSummaryRaw (call : Call) : String :=
  match getCallAnalysisObject call with
  | some o =>
      if o.parse_error then "Error in parsing JSON for call analysis"
      else jsStrOr o.call_summary (jsStrOr o.call_summary_text "")
  | none => ""

def qaCallSummary (call : Call) : String :=
  truncate (qaCallSummaryRaw call) MAX_CALL_SUMMARY_CHARS

/-- Line 178: the collected-variables JSON section. -/
def qaVarsJson (call : Call) : String :=
  safeJson (call.collected_dynamic_variables.getD []) MAX_VARS_JSON_CHARS

/-- The assembled comment body of `buildQaPayload` before the final
overall truncation (lines 156-197). -/
def qaBody (call : Call) : String :=
  let callId := jsStrOr call.call_id "N/A"
  let agentName := jsStrOr call.agent_name "N/A"
  let callType := jsStrOr call.call_type "N/A"
  let durationSec := jsRound (mkRat (call.duration_ms.getD 0) 1000)
  let startTs := tsDisplay call.start_timestamp
  let endTs := tsDisplay call.end_timestamp
  let transcript := qaTranscript call
  let callSummary := qaCallSummary call
  let varsJson := qaVarsJson call
  let body := String.intercalate "\n"
    ["=== AI VOICE CALL REVIEW ===",
     "Call ID: " ++ callId,
     "Agent Name: " ++ agentName,
     "Call Type: " ++ callType,
     "Duration (sec): " ++ toString durationSec,
     "Start timestamp: " ++ startTs,
     "End timestamp: " ++ endTs,
     "",
     "=== COLLECTED VARIABLES ===",
     varsJson,
     "",
     "=== CALL SUMMARY (from Retell call_analysis) ===",
     if callSummary = "" then "N/A" else callSummary,
     "",
     "=== FULL TRANSCRIPT ===",
     if transcript = "" then "N/A" else transcript]
  body

/-- `buildQaPayload` (lines 156-200): the assembled body under the
overall cap (line 199). -/
def buildQaPayload (call : Call) : String :=
  truncate (qaBody call) MAX_QA_BODY_CHARS

-- ------------------------------------------------------------------
-- normalizeCallId and the callid_ tag (server.js lines 65-68, 300-315)
-- ------------------------------------------------------------------

/-- The identifier-safe alphabet `[a-zA-Z0-9_\-]` of line 67. -/
def isIdentSafe (c : Char) : Bool :=
  c.isAlphanum || c == '_' || c == '-'

/-- `normalizeCallId` (lines 65-68): trim, then replace every character
outside the safe alphabet by an underscore. -/
def normalizeCallId (callId : Option String) : String :=
  String.mk ((jsTrim (callId.getD "")).data.map (fun c => if isIdentSafe c then c else '_'))

/-- The external tag built by `findTicketIdByCallIdTag` (line 303) and
`/create-ticket` (line 364) from a truthy `call_id`. -/
def callIdTag (call_id : String) : String :=
  "callid_" ++ normalizeCallId (some call_id)

-- ------------------------------------------------------------------
-- Basic lemmas about the embedded primitives
-- ------------------------------------------------------------------

theorem mem_setAdd {l : List String} {x y : String} :
    x ∈ setAdd l y ↔ x ∈ l ∨ x = y := by
  unfold setAdd
  split
  · constructor
    · exact fun h => Or.inl h
    · rintro (h | rfl)
      · exact h
      · assumption
  · simp

theorem mem_setDelete {l : List String} {x y : String} :
    x ∈ setDelete l y ↔ x ∈ l ∧ x ≠ y := by
  unfold setDelete
  simp

theorem contains_iff_mem (l : List String) (x : String) :
    l.contains x = true ↔ x ∈ l := by
  simp [List.contains, List.elem_iff]

theorem data_append (a b : String) : (a ++ b).data = a.data ++ b.data := rfl

theorem length_mk (l : List Char) : (String.mk l).length = l.length := rfl

/-- Distinctness of a prefixed tag from a fixed tag, by the head
character. -/
theorem ne_append_of_head {p t : String} (s : String) {c d : Char}
    (hp : p.data.head? = some c) (ht : t.data.head? = some d) (hcd : c ≠ d) :
    t ≠ p ++ s := by
  intro h
  apply hcd
  have hdat : t.data = p.data ++ s.data := by rw [h, data_append]
  cases hpd : p.data with
  | nil => rw [hpd] at hp; cases hp
  | cons a as =>
    rw [hpd] at hp
    rw [hdat, hpd] at ht
    simp at hp ht
    rw [← hp, ← ht]

/-- The exact duration condition of line 232, over the raw millisecond
count: `mkRat n 1000` is the exact JS quotient `n / 1000`. -/
theorem isEarlyHangupDuration_eq (call : Call) :
    isEarlyHangupDuration call =
      (decide (0 < call.duration_ms.getD 0) &&
        decide (call.duration_ms.getD 0 < 20000)) := by
  have hq : durationSecOf call = ((call.duration_ms.getD 0 : ℚ)) / 1000 := by
    unfold durationSecOf
    rw [Rat.mkRat_eq_div]
    norm_num
  unfold isEarlyHangupDuration EARLY_HANGUP_THRESHOLD_SEC
  rw [hq]
  rcases Nat.eq_zero_or_pos (call.duration_ms.getD 0) with h0 | hpos
  · simp [h0]
  · have h1 : (0 : ℚ) < (call.duration_ms.getD 0 : ℚ) / 1000 := by positivity
    have h2 : ((call.duration_ms.getD 0 : ℚ) / 1000 < 20) ↔
        (call.duration_ms.getD 0 < 20000) := by
      rw [div_lt_iff₀ (by norm_num : (0:ℚ) < 1000)]
      norm_num
    simp [h1, hpos, h2]

theorem tagsBase_eq : tagsBase = ["retell_ai", "voice_bot", "ai_call_review"] := by decide

-- ------------------------------------------------------------------
-- Membership characterization of each accumulation stage
-- ------------------------------------------------------------------

theorem mem_tagsAfterCallType (call : Call) (x : String) :
    x ∈ tagsAfterCallType call ↔
      x ∈ tagsBase ∨ ∃ ct, call.call_type = some ct ∧ ¬ct = "" ∧ x = "calltype_" ++ jsToLower ct := by
  unfold tagsAfterCallType
  rcases hct : call.call_type with _ | ct
  · simp [hct]
  · by_cases h : ct = "" <;> simp [hct, h, mem_setAdd]

theorem mem_tagsAfterVoicemail (call : Call) (x : String) :
    x ∈ tagsAfterVoicemail call ↔
      x ∈ tagsAfterCallType call ∨
        x = (if inVoicemailOf call then "voicemail_yes" else "voicemail_no") := by
  unfold tagsAfterVoicemail
  rw [mem_setAdd]

theorem mem_tagsAfterTransfer (call : Call) (x : String) :
    x ∈ tagsAfterTransfer call ↔
      x ∈ tagsAfterVoicemail call ∨
        x = (if didTransfer call then "ai_transferred" else "ai_not_transferred") := by
  unfold tagsAfterTransfer
  rw [mem_setAdd]

theorem mem_tagsAfterSentiment (call : Call) (x : String) :
    x ∈ tagsAfterSentiment call ↔
      x ∈ tagsAfterTransfer call ∨
        (userSentimentOf call = "" ∧ x = "sentiment_unknown") ∨
        (¬userSentimentOf call = "" ∧ x = "sentiment_" ++ userSentimentOf call) := by
  unfold tagsAfterSentiment
  by_cases h : userSentimentOf call = "" <;> simp [h, mem_setAdd]

theorem mem_tagsAfterHangup (call : Call) (x : String) :
    x ∈ tagsAfterHangup call ↔
      x ∈ tagsAfterSentiment call ∨
        (userHungUpOf call = true ∧ isEarlyHangupDuration call = true ∧ x = "ai_early_hangup") ∨
        (userHungUpOf call = true ∧ isEarlyHangupDuration call = false ∧ x = "ai_hangup") := by
  unfold tagsAfterHangup
  rcases hu : userHungUpOf call <;> rcases he : isEarlyHangupDuration call <;>
    simp [hu, he, mem_setAdd]

theorem mem_tagsAfterNoChance (call : Call) (x : String) :
    x ∈ tagsAfterNoChance call ↔
      x ∈ tagsAfterHangup call ∨ (earlyOverride call = true ∧ x = "ai_no_chance") := by
  unfold tagsAfterNoChance
  rcases ho : earlyOverride call <;> simp [ho, mem_setAdd]

theorem mem_computeTags (call : Call) (x : String) :
    x ∈ computeTags call ↔
      (x ∈ tagsAfterNoChance call ∧ ¬x = "ai_resolved" ∧ ¬x = "ai_failed") ∨
        x = outcomeOf call ∨
        (requestedHumanOf call = true ∧ x = "requested_human") := by
  unfold computeTags
  rcases hr : requestedHumanOf call <;>
    simp [hr, mem_setAdd, mem_setDelete, and_assoc] <;> tauto

/-- The outcome is always one of the two outcome tags. -/
theorem outcomeOf_cases (call : Call) :
    outcomeOf call = "ai_resolved" ∨ outcomeOf call = "ai_failed" := by
  unfold outcomeOf
  split_ifs <;> simp

theorem not_mem_pre (call : Call) {t : String}
    (hlit : ¬t = "retell_ai" ∧ ¬t = "voice_bot" ∧ ¬t = "ai_call_review" ∧
      ¬t = "voicemail_yes" ∧ ¬t = "voicemail_no" ∧ ¬t = "ai_transferred" ∧
      ¬t = "ai_not_transferred" ∧ ¬t = "sentiment_unknown")
    (hc : ∀ s, ¬t = "calltype_" ++ s) (hs : ∀ s, ¬t = "sentiment_" ++ s) :
    t ∉ tagsAfterSentiment call := by
  obtain ⟨h1, h2, h3, h4, h5, h6, h7, h8⟩ := hlit
  intro hx
  rw [mem_tagsAfterSentiment] at hx
  rcases hx with hx | ⟨_, hx⟩ | ⟨_, hx⟩
  · rw [mem_tagsAfterTransfer] at hx
    rcases hx with hx | hx
    · rw [mem_tagsAfterVoicemail] at hx
      rcases hx with hx | hx
      · rw [mem_tagsAfterCallType] at hx
        rcases hx with hx | ⟨ct, _, _, hx⟩
        · rw [tagsBase_eq] at hx
          simp at hx
          tauto
        · exact hc _ hx
      · split at hx
        · exact h4 hx
        · exact h5 hx
    · split at hx
      · exact h6 hx
      · exact h7 hx
  · exact h8 hx
  · exact hs _ hx

theorem early_not_pre (call : Call) : "ai_early_hangup" ∉ tagsAfterSentiment call :=
  not_mem_pre call (by decide)
    (fun s => ne_append_of_head s rfl rfl (by decide))
    (fun s => ne_append_of_head s rfl rfl (by decide))

theorem noChance_not_pre (call : Call) : "ai_no_chance" ∉ tagsAfterSentiment call :=
  not_mem_pre call (by decide)
    (fun s => ne_append_of_head s rfl rfl (by decide))
    (fun s => ne_append_of_head s rfl rfl (by decide))

theorem early_hangup_pre_iff (call : Call) :
    "ai_early_hangup" ∈ tagsAfterHangup call ↔
      (userHungUpOf call = true ∧ isEarlyHangupDuration call = true) := by
  rw [mem_tagsAfterHangup]
  simp [early_not_pre call]

theorem earlyOverride_iff (call : Call) :
    earlyOverride call = true ↔
      ("ai_early_hangup" ∈ tagsAfterHangup call ∧ requestedHumanOf call = false ∧
        ¬userSentimentOf call = "negative") := by
  unfold earlyOverride
  rw [Bool.and_eq_true, Bool.and_eq_true, contains_iff_mem]
  simp [and_assoc]

theorem resolved_mem_iff (call : Call) :
    "ai_resolved" ∈ computeTags call ↔ outcomeOf call = "ai_resolved" := by
  rw [mem_computeTags]
  constructor
  · rintro (⟨_, hne, _⟩ | h | ⟨_, h⟩)
    · exact absurd rfl hne
    · exact h.symm
    · exact absurd h (by decide)
  · intro h
    exact Or.inr (Or.inl h.symm)

theorem failed_mem_iff (call : Call) :
    "ai_failed" ∈ computeTags call ↔ outcomeOf call = "ai_failed" := by
  rw [mem_computeTags]
  constructor
  · rintro (⟨_, _, hne⟩ | h | ⟨_, h⟩)
    · exact absurd rfl hne
    · exact h.symm
    · exact absurd h (by decide)
  · intro h
    exact Or.inr (Or.inl h.symm)

theorem early_hangup_mem_iff (call : Call) :
    "ai_early_hangup" ∈ computeTags call ↔
      (userHungUpOf call = true ∧ isEarlyHangupDuration call = true) := by
  have hne : ¬("ai_early_hangup" = outcomeOf call) := by
    rcases outcomeOf_cases call with h | h <;> rw [h] <;> decide
  rw [mem_computeTags, mem_tagsAfterNoChance, mem_tagsAfterHangup]
  simp [early_not_pre call, hne]

theorem no_chance_mem_iff (call : Call) :
    "ai_no_chance" ∈ computeTags call ↔ earlyOverride call = true := by
  have hne : ¬("ai_no_chance" = outcomeOf call) := by
    rcases outcomeOf_cases call with h | h <;> rw [h] <;> decide
  rw [mem_computeTags, mem_tagsAfterNoChance, mem_tagsAfterHangup]
  simp [noChance_not_pre call, hne]

-- ------------------------------------------------------------------
-- Concrete calls used as counterexamples and witnesses
-- ------------------------------------------------------------------

/-- A transferred call that also hits the early-hangup override: one tool
call named `transfer_call`, a 5-second user hangup, empty transcript, no
analysis. -/
def transferEarlyHangupCall : Call :=
  { emptyCall with
    tool_calls := some [⟨none, some "transfer_call"⟩],
    duration_ms := some 5000,
    disconnection_reason := some "user_hangup" }

/-- A transferred call without an early hangup. -/
def transferLateCall : Call :=
  { emptyCall with
    tool_calls := some [⟨none, some "transfer_call"⟩],
    duration_ms := some 60000,
    disconnection_reason := some "agent hung up" }

/-- A 5-second user hangup with no other signals. -/
def earlyHangupCall : Call :=
  { emptyCall with
    duration_ms := some 5000,
    disconnection_reason := some "user hangup" }

/-- A 5-second user hangup with negative sentiment. -/
def negativeEarlyHangupCall : Call :=
  { emptyCall with
    duration_ms := some 5000,
    disconnection_reason := some "user hangup",
    call_analysis := CAVal.obj ⟨none, some "negative", none, none, none, false, none⟩ }

/-- C1: for every CallRecord, the tag list returned by computeTags
contains exactly one of the outcome tags ai_resolved and ai_failed —
never both and never neither. -/
theorem computeTags_exactly_one_outcome (call : Call) :
    ("ai_resolved" ∈ computeTags call ∨ "ai_failed" ∈ computeTags call) ∧
      ¬("ai_resolved" ∈ computeTags call ∧ "ai_failed" ∈ computeTags call) := by
  rcases outcomeOf_cases call with h | h
  · refine ⟨Or.inl ((resolved_mem_iff call).2 h), ?_⟩
    rintro ⟨-, hf⟩
    rw [failed_mem_iff call, h] at hf
    exact absurd hf (by decide)
  · refine ⟨Or.inr ((failed_mem_iff call).2 h), ?_⟩
    rintro ⟨hr, -⟩
    rw [resolved_mem_iff call, h] at hr
    exact absurd hr (by decide)

/-- C2 counterexample: a transferred call for which the early-hangup
override applies anyway — computeTags yields ai_resolved and ai_no_chance
despite the transfer, contradicting the claim that transfer forces
ai_failed unconditionally. -/
theorem transfer_override_counterexample :
    didTransfer transferEarlyHangupCall = true ∧
      "ai_resolved" ∈ computeTags transferEarlyHangupCall ∧
      "ai_no_chance" ∈ computeTags transferEarlyHangupCall ∧
      "ai_failed" ∉ computeTags transferEarlyHangupCall := by decide

/-- C2 (amended): a transferred call is classified ai_failed, with no
ai_no_chance tag, whenever the early-hangup override does not apply; the
override (early hangup, no escalation request, non-negative sentiment)
does apply to transferred calls. -/
theorem transfer_failed_unless_override (call : Call)
    (ht : didTransfer call = true) (hov : earlyOverride call = false) :
    "ai_failed" ∈ computeTags call ∧ "ai_resolved" ∉ computeTags call ∧
      "ai_no_chance" ∉ computeTags call := by
  have hf : failCond call = true := by
    unfold failCond
    rw [ht]
    simp
  have hout : outcomeOf call = "ai_failed" := by
    unfold outcomeOf
    simp [hov, hf]
  refine ⟨(failed_mem_iff call).2 hout, ?_, ?_⟩
  · intro hr
    rw [resolved_mem_iff call, hout] at hr
    exact absurd hr (by decide)
  · intro hn
    rw [no_chance_mem_iff call, hov] at hn
    exact absurd hn (by decide)

theorem transfer_failed_unless_override_witness :
    "ai_failed" ∈ computeTags transferLateCall ∧
      "ai_resolved" ∉ computeTags transferLateCall :=
  ⟨(transfer_failed_unless_override transferLateCall (by decide) (by decide)).1,
   (transfer_failed_unless_override transferLateCall (by decide) (by decide)).2.1⟩

/-- C3: a call that receives the ai_early_hangup tag, with no escalation
request and non-negative sentiment, is classified ai_resolved and also
receives the ai_no_chance tag. -/
theorem early_hangup_override_resolved (call : Call)
    (he : "ai_early_hangup" ∈ computeTags call)
    (hr : requestedHumanOf call = false)
    (hs : ¬userSentimentOf call = "negative") :
    "ai_resolved" ∈ computeTags call ∧ "ai_no_chance" ∈ computeTags call := by
  have hpre : "ai_early_hangup" ∈ tagsAfterHangup call :=
    (early_hangup_pre_iff call).2 ((early_hangup_mem_iff call).1 he)
  have hov : earlyOverride call = true := (earlyOverride_iff call).2 ⟨hpre, hr, hs⟩
  have hout : outcomeOf call = "ai_resolved" := by
    unfold outcomeOf
    simp [hov]
  exact ⟨(resolved_mem_iff call).2 hout, (no_chance_mem_iff call).2 hov⟩

theorem early_hangup_override_resolved_witness :
    "ai_resolved" ∈ computeTags earlyHangupCall ∧
      "ai_no_chance" ∈ computeTags earlyHangupCall :=
  early_hangup_override_resolved earlyHangupCall (by decide) (by decide) (by decide)

/-- C4: a call that receives the ai_early_hangup tag with negative user
sentiment is classified ai_failed and does not receive ai_no_chance. -/
theorem early_hangup_negative_failed (call : Call)
    (he : "ai_early_hangup" ∈ computeTags call)
    (hs : userSentimentOf call = "negative") :
    "ai_failed" ∈ computeTags call ∧ "ai_no_chance" ∉ computeTags call := by
  have hov : earlyOverride call = false := by
    unfold earlyOverride
    simp [hs]
  have hf : failCond call = true := by
    unfold failCond
    simp [hs]
  have hout : outcomeOf call = "ai_failed" := by
    unfold outcomeOf
    simp [hov, hf]
  refine ⟨(failed_mem_iff call).2 hout, fun hn => ?_⟩
  rw [no_chance_mem_iff call, hov] at hn
  exact absurd hn (by decide)

theorem early_hangup_negative_failed_witness :
    "ai_failed" ∈ computeTags negativeEarlyHangupCall ∧
      "ai_no_chance" ∉ computeTags negativeEarlyHangupCall :=
  early_hangup_negative_failed negativeEarlyHangupCall (by decide) (by decide)

/-- C5: a call whose duration_ms is 0 or absent never receives the
ai_early_hangup tag. -/
theorem zero_duration_no_early_hangup (call : Call)
    (h : call.duration_ms = none ∨ call.duration_ms = some 0) :
    "ai_early_hangup" ∉ computeTags call := by
  intro he
  have hd : call.duration_ms.getD 0 = 0 := by
    rcases h with h | h <;> rw [h] <;> rfl
  have hz : isEarlyHangupDuration call = false := by
    rw [isEarlyHangupDuration_eq, hd]
    rfl
  obtain ⟨-, hearly⟩ := (early_hangup_mem_iff call).1 he
  rw [hearly] at hz
  exact absurd hz (by decide)

theorem zero_duration_no_early_hangup_witness :
    "ai_early_hangup" ∉ computeTags emptyCall :=
  zero_duration_no_early_hangup emptyCall (Or.inl rfl)

/-- C10: whenever computeTags produces the ai_no_chance tag it also
produces ai_resolved. -/
theorem no_chance_implies_resolved (call : Call)
    (hn : "ai_no_chance" ∈ computeTags call) :
    "ai_resolved" ∈ computeTags call := by
  have hov := (no_chance_mem_iff call).1 hn
  have hout : outcomeOf call = "ai_resolved" := by
    unfold outcomeOf
    simp [hov]
  exact (resolved_mem_iff call).2 hout

theorem no_chance_implies_resolved_witness :
    "ai_resolved" ∈ computeTags earlyHangupCall :=
  no_chance_implies_resolved earlyHangupCall (by decide)

-- ------------------------------------------------------------------
-- C7: didTransfer as a disjunction of per-source hits
-- ------------------------------------------------------------------

/-- A hit in `transcript_with_tool_calls`, as the specification words it:
an entry whose role is `tool_call_invocation` and whose name contains the
substring "transfer" case-insensitively. -/
def twtcTransferHit (call : Call) : Prop :=
  ∃ e ∈ call.transcript_with_tool_calls.getD [],
    e.role = some "tool_call_invocation" ∧ jsIncludes (safeLower e.name) "transfer" = true

/-- A hit in `tool_calls`: an entry whose name contains "transfer"
case-insensitively. -/
def toolCallsTransferHit (call : Call) : Prop :=
  ∃ t ∈ call.tool_calls.getD [], jsIncludes (safeLower t.name) "transfer" = true

/-- C7: didTransfer returns true exactly when at least one of the two
sources yields a hit, and returns false (without any error: the function
is total) when both collections are absent or malformed. -/
theorem didTransfer_iff (call : Call) :
    (didTransfer call = true ↔ (twtcTransferHit call ∨ toolCallsTransferHit call)) ∧
      (call.transcript_with_tool_calls = none → call.tool_calls = none →
        didTransfer call = false) := by
  constructor
  · unfold didTransfer twtcTransferHit toolCallsTransferHit
    rcases h1 : call.transcript_with_tool_calls with _ | l1 <;>
      rcases h2 : call.tool_calls with _ | l2 <;>
        simp [h1, h2, List.any_eq_true]
  · intro h1 h2
    unfold didTransfer
    rw [h1, h2]
    rfl

-- A call with a transfer tool call only in `transcript_with_tool_calls`.
def twtcTransferCall : Call :=
  { emptyCall with
    transcript_with_tool_calls :=
      some [⟨some "tool_call_invocation", some "Transfer_to_agent"⟩] }

theorem didTransfer_iff_witness :
    didTransfer emptyCall = false ∧ didTransfer twtcTransferCall = true :=
  ⟨(didTransfer_iff emptyCall).2 rfl rfl,
   ((didTransfer_iff twtcTransferCall).1).2
     (Or.inl ⟨⟨some "tool_call_invocation", some "Transfer_to_agent"⟩, by decide, by decide⟩)⟩

-- ------------------------------------------------------------------
-- C8: totality of the classification
-- ------------------------------------------------------------------

theorem base_mem_computeTags (call : Call) (x : String) (hx : x ∈ tagsBase)
    (h1 : ¬x = "ai_resolved") (h2 : ¬x = "ai_failed") :
    x ∈ computeTags call := by
  rw [mem_computeTags]
  exact Or.inl
    ⟨(mem_tagsAfterNoChance _ _).2 (Or.inl ((mem_tagsAfterHangup _ _).2 (Or.inl
      ((mem_tagsAfterSentiment _ _).2 (Or.inl ((mem_tagsAfterTransfer _ _).2 (Or.inl
        ((mem_tagsAfterVoicemail _ _).2 (Or.inl ((mem_tagsAfterCallType _ _).2
          (Or.inl hx))))))))))), h1, h2⟩

/-- C8: classification is total.  The embedding is a total function over
a domain that includes absent and malformed shapes for every field; the
only internally fallible step, `JSON.parse` of a stringified
call_analysis, is caught (the explicit-error variant never returns an
error), and for every input computeTags returns a tag list carrying the
three base tags. -/
theorem computeTags_total (call : Call) :
    getCallAnalysisObjectE call = Except.ok (getCallAnalysisObject call) ∧
      "retell_ai" ∈ computeTags call ∧ "voice_bot" ∈ computeTags call ∧
      "ai_call_review" ∈ computeTags call := by
  refine ⟨?_, ?_, ?_, ?_⟩
  · unfold getCallAnalysisObjectE getCallAnalysisObject
    rcases call.call_analysis with _ | o | ⟨s, parsed⟩ | _
    · rfl
    · rfl
    · rcases parsed with _ | o <;> by_cases h : s = "" <;> simp [h]
    · rfl
  · exact base_mem_computeTags call _ (by decide) (by decide) (by decide)
  · exact base_mem_computeTags call _ (by decide) (by decide) (by decide)
  · exact base_mem_computeTags call _ (by decide) (by decide) (by decide)

-- ------------------------------------------------------------------
-- C9: normalizeCallId and the callid_ tag
-- ------------------------------------------------------------------

/-- C9: normalizeCallId emits only identifier-safe characters (ASCII
letters, digits, underscore, hyphen), and the external lookup tag is
`callid_` followed by exactly this sanitized form. -/
theorem normalizeCallId_safe (s : String) :
    (∀ c ∈ (normalizeCallId (some s)).data, isIdentSafe c = true) ∧
      callIdTag s = "callid_" ++ normalizeCallId (some s) := by
  refine ⟨?_, rfl⟩
  intro c hc
  unfold normalizeCallId at hc
  rw [show (String.mk ((jsTrim ((some s).getD "")).data.map
      (fun c => if isIdentSafe c then c else '_'))).data =
    (jsTrim ((some s).getD "")).data.map (fun c => if isIdentSafe c then c else '_')
    from rfl, List.mem_map] at hc
  obtain ⟨d, -, rfl⟩ := hc
  by_cases h : isIdentSafe d
  · rw [if_pos h]
    exact h
  · rw [if_neg h]
    decide

theorem normalizeCallId_safe_witness :
    isIdentSafe '_' = true ∧
      callIdTag "ab c!" = "callid_" ++ normalizeCallId (some "ab c!") :=
  ⟨(normalizeCallId_safe "ab c!").1 '_' (by decide),
   (normalizeCallId_safe "ab c!").2⟩

-- ------------------------------------------------------------------
-- C6: bounds of the QA report
-- ------------------------------------------------------------------

theorem truncate_eq_of_le (s : String) (cap : Nat) (h : s.length ≤ cap) :
    truncate s cap = s := by
  rw [truncate, if_pos h]

theorem truncate_marker (s : String) (cap : Nat) (h : cap < s.length) :
    ∃ p, truncate s cap = p ++ truncSuffix :=
  ⟨String.mk (s.data.take (cap - truncSuffix.length)),
   by rw [truncate, if_neg (by omega)]⟩

theorem truncate_length_le (s : String) (cap : Nat) (h : truncSuffix.length ≤ cap) :
    (truncate s cap).length ≤ cap := by
  by_cases h2 : s.length ≤ cap
  · rw [truncate, if_pos h2]
    exact h2
  · rw [truncate, if_neg h2]
    rw [String.length_append, length_mk, List.length_take]
    have hs : truncSuffix.length = 15 := rfl
    have hmin := Nat.min_le_left (cap - truncSuffix.length) s.data.length
    omega

/-- C6: the QA report never exceeds the overall cap of 60000 characters,
and each section is independently truncated to its own cap — kept intact
when it fits, cut to the cap with the visible `...[truncated]` marker
appended when it does not. -/
theorem qa_report_bounded (call : Call) :
    (buildQaPayload call).length ≤ MAX_QA_BODY_CHARS ∧
      (qaTranscript call).length ≤ MAX_TRANSCRIPT_CHARS ∧
      (qaVarsJson call).length ≤ MAX_VARS_JSON_CHARS ∧
      (qaCallSummary call).length ≤ MAX_CALL_SUMMARY_CHARS ∧
      ((qaTranscriptRaw call).length ≤ MAX_TRANSCRIPT_CHARS →
        qaTranscript call = qaTranscriptRaw call) ∧
      (MAX_TRANSCRIPT_CHARS < (qaTranscriptRaw call).length →
        ∃ p, qaTranscript call = p ++ truncSuffix) ∧
      ((jsonStringifyVars (call.collected_dynamic_variables.getD [])).length ≤
          MAX_VARS_JSON_CHARS →
        qaVarsJson call = jsonStringifyVars (call.collected_dynamic_variables.getD [])) ∧
      (MAX_VARS_JSON_CHARS <
          (jsonStringifyVars (call.collected_dynamic_variables.getD [])).length →
        ∃ p, qaVarsJson call = p ++ truncSuffix) ∧
      ((qaCallSummaryRaw call).length ≤ MAX_CALL_SUMMARY_CHARS →
        qaCallSummary call = qaCallSummaryRaw call) ∧
      (MAX_CALL_SUMMARY_CHARS < (qaCallSummaryRaw call).length →
        ∃ p, qaCallSummary call = p ++ truncSuffix) := by
  refine ⟨truncate_length_le _ _ (by decide),
    truncate_length_le _ _ (by decide),
    truncate_length_le _ _ (by decide),
    truncate_length_le _ _ (by decide),
    fun h => truncate_eq_of_le _ _ h,
    fun h => truncate_marker _ _ h,
    fun h => truncate_eq_of_le _ _ h,
    fun h => truncate_marker _ _ h,
    fun h => truncate_eq_of_le _ _ h,
    fun h => truncate_marker _ _ h⟩

/-- A transcript one character over the transcript cap. -/
def longTranscriptCall : Call :=
  { emptyCall with transcript := some (String.mk (List.replicate 30001 'a')) }

theorem qa_report_bounded_witness :
    (buildQaPayload longTranscriptCall).length ≤ MAX_QA_BODY_CHARS ∧
      (∃ p, qaTranscript longTranscriptCall = p ++ truncSuffix) := by
  refine ⟨(qa_report_bounded longTranscriptCall).1, ?_⟩
  apply (qa_report_bounded longTranscriptCall).2.2.2.2.2.1
  have h1 : qaTranscriptRaw longTranscriptCall = String.mk (List.replicate 30001 'a') := rfl
  rw [h1, length_mk, List.length_replicate]
  decide

theorem computeTags_exactly_one_outcome_witness :
    "ai_resolved" ∈ computeTags emptyCall ∨ "ai_failed" ∈ computeTags emptyCall :=
  (computeTags_exactly_one_outcome emptyCall).1

theorem computeTags_total_witness :
    getCallAnalysisObjectE emptyCall = Except.ok (getCallAnalysisObject emptyCall) ∧
      "retell_ai" ∈ computeTags emptyCall :=
  ⟨(computeTags_total emptyCall).1, (computeTags_total emptyCall).2.1⟩
